import Mathlib

/-!
Verification of the scene/visibility and light-assignment core of the OGRE
repository, as described by its natural-language specification.

The definitions below are a shallow embedding of the relevant source files:
  - `HashedVector` and its operations, from OgreMain/include/OgreCommon.h
    (the `HashedVector<T>` template);
  - `LightClosest` and the light list, from the same header;
  - `MovableObject` and its operations, from OgreMain/src/OgreMovableObject.cpp.

Machine integers (`uint32`, `uint8`, `size_t`) are modelled as `Nat`; the
`Real` scalar type is modelled as `Int` (all the verified properties are
order/identity properties, not properties of floating-point rounding).
C++ `assert` (active in debug builds, where `NDEBUG` is undefined) is
modelled by returning `Option`/`none` on assertion failure.  Listener
callbacks only produce externally visible notifications and do not change
the object state inspected by the claims, so they are not modelled.

Code of the repository that is not among the provided sources
(SceneNode, Aabb geometry, the FastHash body, render-queue constants) is
modelled from the specification; every such definition carries a doc
comment starting with `Modelled from the spec:`.
-/

namespace OgreSpec

/-! ## HashedVector (OgreCommon.h)

`HashedVector<T>` keeps a `std::vector<T>` (`mList`) together with a cached
content hash `mListHash` and a dirtiness flag `mListHashDirty`.  The element
hash combiner `FastHash((const char*)&t, sizeof(T), hashSoFar)` is
implemented in a file not among the provided sources, so all operations are
parametrised by an arbitrary combiner `fh : α → Nat → Nat` standing for
`fun t h => FastHash(bytesOf t, sizeof T, h)`. -/

structure HashedVector (α : Type) where
  mList : List α
  mListHash : Nat
  mListHashDirty : Bool
deriving Repr, DecidableEq

namespace HashedVector

variable {α : Type}

/-- Embeds `HashedVector()` : default constructor, `mListHash(0), mListHashDirty(false)`. -/
def empty : HashedVector α := ⟨[], 0, false⟩

/-- Embeds `addToHash(t)` : `mListHash = FastHash(&t, sizeof(T), mListHash)`. -/
def addToHash (fh : α → Nat → Nat) (t : α) (hv : HashedVector α) : HashedVector α :=
  { hv with mListHash := fh t hv.mListHash }

/-- The hash `recalcHash` computes: fold the combiner over the elements
starting from 0. -/
def listHash (fh : α → Nat → Nat) (l : List α) : Nat :=
  l.foldl (fun h t => fh t h) 0

/-- Embeds `recalcHash()` : reset to 0, re-add every element, clear the dirty flag. -/
def recalcHash (fh : α → Nat → Nat) (hv : HashedVector α) : HashedVector α :=
  { hv with mListHash := listHash fh hv.mList, mListHashDirty := false }

/-- Embeds `dirtyHash()`. -/
def dirtyHash (hv : HashedVector α) : HashedVector α :=
  { hv with mListHashDirty := true }

/-- Embeds `isHashDirty()`. -/
def isHashDirty (hv : HashedVector α) : Bool :=
  hv.mListHashDirty

/-- Embeds `push_back(t)` : append, then `if (!isHashDirty()) addToHash(t)`
("quick progressive hash add"). -/
def push_back (fh : α → Nat → Nat) (t : α) (hv : HashedVector α) : HashedVector α :=
  let hv1 := { hv with mList := hv.mList ++ [t] }
  if hv1.isHashDirty then hv1 else addToHash fh t hv1

/-- Embeds `pop_back()` : drop the last element and `dirtyHash()`. -/
def pop_back (hv : HashedVector α) : HashedVector α :=
  dirtyHash { hv with mList := hv.mList.dropLast }

/-- Embeds `insert(pos, t)` : `recalc = (pos != end())`; insert; dirty the hash if
`recalc`, else `addToHash(t)`.  The iterator `pos` is modelled as an index. -/
def insert (fh : α → Nat → Nat) (pos : Nat) (t : α) (hv : HashedVector α) : HashedVector α :=
  let recalc := pos ≠ hv.mList.length
  let hv1 := { hv with mList := hv.mList.insertIdx pos t }
  if recalc then dirtyHash hv1 else addToHash fh t hv1

/-- Range `insert(pos, f, l)` : splice the range in and `dirtyHash()`. -/
def insertRange (pos : Nat) (ts : List α) (hv : HashedVector α) : HashedVector α :=
  dirtyHash { hv with mList := hv.mList.take pos ++ ts ++ hv.mList.drop pos }

/-- Embeds `erase(pos)` : remove the element at `pos` and `dirtyHash()`. -/
def erase (pos : Nat) (hv : HashedVector α) : HashedVector α :=
  dirtyHash { hv with mList := hv.mList.eraseIdx pos }

/-- Embeds `clear()` : empty the vector, `mListHash = 0`, `mListHashDirty = false`. -/
def clear (hv : HashedVector α) : HashedVector α :=
  { hv with mList := [], mListHash := 0, mListHashDirty := false }

/-- Embeds `resize(n, t)` : `recalc = (n != size())`; resize; dirty the hash if
`recalc`. -/
def resize (n : Nat) (t : α) (hv : HashedVector α) : HashedVector α :=
  let recalc := n ≠ hv.mList.length
  let newList :=
    if n ≤ hv.mList.length then hv.mList.take n
    else hv.mList ++ List.replicate (n - hv.mList.length) t
  let hv1 := { hv with mList := newList }
  if recalc then dirtyHash hv1 else hv1

/-- Embeds `swap(rhs)` : swap the two element sequences, then `dirtyHash()` — on the
receiver only; `rhs`'s hash fields are untouched.  Returns
(receiver, argument) after the call. -/
def swap (hv rhs : HashedVector α) : HashedVector α × HashedVector α :=
  (dirtyHash { hv with mList := rhs.mList }, { rhs with mList := hv.mList })

/-- A write through the non-const `operator[]` : the accessor calls
`dirtyHash()` and returns a mutable reference; the caller then stores `x`
through it. -/
def subscriptSet (pos : Nat) (x : α) (hv : HashedVector α) : HashedVector α :=
  { dirtyHash hv with mList := hv.mList.set pos x }

/-- Embeds `getHash()` : recalculate if dirty, then return `mListHash`.  Returns the
hash together with the (possibly updated, `mutable`) vector. -/
def getHash (fh : α → Nat → Nat) (hv : HashedVector α) : Nat × HashedVector α :=
  let hv1 := if hv.isHashDirty then recalcHash fh hv else hv
  (hv1.mListHash, hv1)

/-- Embeds `operator==(b)` : `return mListHash == b.mListHash;`. -/
def beq (hv b : HashedVector α) : Bool :=
  hv.mListHash == b.mListHash

/-- The lazy-hash validity invariant: whenever the vector is not marked
dirty, the stored hash is exactly the full recompute over the current
elements. -/
def hashAccurate (fh : α → Nat → Nat) (hv : HashedVector α) : Prop :=
  hv.mListHashDirty = false → hv.mListHash = listHash fh hv.mList

/-- Build a `HashedVector` by `push_back`-ing every element of a list into a
fresh vector (how a result list is materialised into the cached
`LightList`). -/
def ofList (fh : α → Nat → Nat) (l : List α) : HashedVector α :=
  l.foldl (fun hv t => push_back fh t hv) empty

end HashedVector

/-! ## Geometry: vectors, affine transforms, Aabb

`Vector3`, `Matrix4` and `Aabb` live in headers that are not among the
provided sources; they are modelled from the specification.  Scalars are
`Int` (see the header comment). -/

/-- Modelled from the spec: a 3-component vector (`Ogre::Vector3`), used for
positions, scales and box extents ("min/max corner per axis" /
center+half-extent). -/
structure Vec3 where
  x : Int
  y : Int
  z : Int
deriving Repr, DecidableEq

/-- Componentwise vector addition. -/
def Vec3.add (a b : Vec3) : Vec3 :=
  ⟨a.x + b.x, a.y + b.y, a.z + b.z⟩

/-- Squared Euclidean distance between two points ("compute squared distance
from each candidate light to the query point"). -/
def Vec3.distSq (a b : Vec3) : Int :=
  (a.x - b.x) * (a.x - b.x) + (a.y - b.y) * (a.y - b.y) + (a.z - b.z) * (a.z - b.z)

/-- Modelled from the spec: the 3×3 linear part of a transform matrix. -/
structure Mat3 where
  m00 : Int
  m01 : Int
  m02 : Int
  m10 : Int
  m11 : Int
  m12 : Int
  m20 : Int
  m21 : Int
  m22 : Int
deriving Repr, DecidableEq

/-- Matrix–vector product. -/
def Mat3.mulVec (m : Mat3) (v : Vec3) : Vec3 :=
  ⟨m.m00 * v.x + m.m01 * v.y + m.m02 * v.z,
   m.m10 * v.x + m.m11 * v.y + m.m12 * v.z,
   m.m20 * v.x + m.m21 * v.y + m.m22 * v.z⟩

/-- Componentwise absolute value of the linear part (the "matrix-abs"
half-extent transform of the spec). -/
def Mat3.matAbs (m : Mat3) : Mat3 :=
  ⟨|m.m00|, |m.m01|, |m.m02|, |m.m10|, |m.m11|, |m.m12|, |m.m20|, |m.m21|, |m.m22|⟩

/-- Modelled from the spec: an affine `Matrix4` (a node's full/derived world
transform) split into its linear part and its translation column. -/
structure Mat4 where
  lin : Mat3
  trans : Vec3
deriving Repr, DecidableEq

/-- Modelled from the spec: `Ogre::Aabb`, an axis-aligned bounding box in
center/half-extent form. -/
structure Aabb where
  mCenter : Vec3
  mHalfSize : Vec3
deriving Repr, DecidableEq

/-- Modelled from the spec: `Aabb::transformAffine` — "AABB transform under a
general affine transform takes the … center+half-extent matrix-abs approach
to remain a tight axis-aligned bound": the center is mapped through the full
affine transform, the half-extent through the componentwise absolute value
of the linear part. -/
def Aabb.transformAffine (a : Aabb) (m : Mat4) : Aabb :=
  ⟨(m.lin.mulVec a.mCenter).add m.trans, (m.lin.matAbs).mulVec a.mHalfSize⟩

/-! ## Lights and the nearest-lights query -/

/-- Modelled from the spec: the data of one candidate light that the query
consumes — its stable global index (position in the scene's global light
list), its world position, and its light mask. -/
structure Light where
  globalIndex : Nat
  pos : Vec3
  lightMask : Nat
deriving Repr, DecidableEq

/-- Embeds `LightClosest` (OgreCommon.h): one entry of the sorted light list —
a light reference, its index into the global light list, and its distance to
the queried object.  Distances here are the squared Euclidean distances the
spec's algorithm computes (squaring is monotone, so ascending order is the
same). -/
structure LightClosest where
  light : Light
  globalIndex : Nat
  distance : Int
deriving Repr, DecidableEq

/-- The order the sorted light list obeys (`LightClosest::operator<`, whose
body is not among the provided sources). Modelled from the spec: ascending
by distance; "ties broken by the light's stable global index (lower index
wins)". -/
def lcLE (a b : LightClosest) : Prop :=
  a.distance < b.distance ∨ (a.distance = b.distance ∧ a.globalIndex ≤ b.globalIndex)

instance : DecidableRel lcLE := fun a b =>
  inferInstanceAs
    (Decidable (a.distance < b.distance ∨ (a.distance = b.distance ∧ a.globalIndex ≤ b.globalIndex)))

instance : IsTotal LightClosest lcLE where
  total a b := by
    rcases lt_trichotomy a.distance b.distance with h | h | h
    · exact Or.inl (Or.inl h)
    · rcases Nat.le_total a.globalIndex b.globalIndex with h2 | h2
      · exact Or.inl (Or.inr ⟨h, h2⟩)
      · exact Or.inr (Or.inr ⟨h.symm, h2⟩)
    · exact Or.inr (Or.inl h)

instance : IsTrans LightClosest lcLE where
  trans _ _ _ hab hbc := by
    rcases hab with h1 | ⟨h1, h1i⟩ <;> rcases hbc with h2 | ⟨h2, h2i⟩
    · exact Or.inl (h1.trans h2)
    · exact Or.inl (h2 ▸ h1)
    · exact Or.inl (h1 ▸ h2)
    · exact Or.inr ⟨h1.trans h2, h1i.trans h2i⟩

/-- Modelled from the spec: `SceneNode::findLights` / the Light Indexing &
Query Service (§4.4), not among the provided sources.  "given a candidate
set of lights … and a query point + radius + light mask, compute squared
distance from each candidate light to the query point, filter by light-mask
intersection, select the nearest K …, and produce them sorted ascending by
distance; ties broken by the light's stable global index".  Lights within
the radius are those whose squared distance is at most the squared radius. -/
def findLights (lights : List Light) (p : Vec3) (radius : Int) (mask : Nat)
    (K : Nat) : List LightClosest :=
  (List.insertionSort lcLE
    ((lights.filter
      (fun L => decide (L.lightMask &&& mask ≠ 0) && decide (Vec3.distSq p L.pos ≤ radius * radius))).map
      (fun L => LightClosest.mk L L.globalIndex (Vec3.distSq p L.pos)))).take K

/-- Modelled from the spec: the `FastHash` combiner specialised to
`LightClosest` entries (the hash body lives in a file not among the provided
sources).  The verified properties do not depend on the choice of mixing
function. -/
def fhLC (e : LightClosest) (h : Nat) : Nat :=
  (2 * h + e.globalIndex + e.distance.natAbs + 1) % 4294967296

/-- Embeds `LightList` = `HashedVector<LightClosest>` (OgreCommon.h). -/
def LightList := HashedVector LightClosest

/-! ## SceneNode and MovableObject (OgreMovableObject.cpp) -/

/-- Modelled from the spec: the part of a Transform Node (`Ogre::SceneNode`,
not among the provided sources) that `MovableObject` reads — its up-to-date
derived (world) transform (`_getFullTransformUpdated`), derived scale
(`_getDerivedScale`), derived position (the light-query point), and the
scene light set its spatial index answers `findLights` from. -/
structure SceneNode where
  derivedTransform : Mat4
  derivedScale : Vec3
  derivedPosition : Vec3
  lights : List Light
deriving Repr, DecidableEq

/-- Embeds `MovableObject::msDefaultQueryFlags = 0xFFFFFFFF`. -/
def msDefaultQueryFlags : Nat := 0xFFFFFFFF

/-- Embeds `MovableObject::msDefaultVisibilityFlags = 0xFFFFFFFF`. -/
def msDefaultVisibilityFlags : Nat := 0xFFFFFFFF

/-- Modelled from the spec: the named render-queue constant
`RENDER_QUEUE_MAIN` (its numeric value lives in OgreRenderQueue.h, not among
the provided sources; the claims use it only by name). -/
def RENDER_QUEUE_MAIN : Nat := 50

/-- The exact numeric value of `std::numeric_limits<float>::max()`,
`(2 - 2^-23) * 2^127`. -/
def floatMaxVal : Nat := 2 ^ 128 - 2 ^ 104

/-- The `MovableObject` state the claims touch.  The per-slot SoA fields
(`mObjectData.mParents/mLocalAabb/mWorldAabb` at `mObjectData.mIndex`) are
flattened into the object.  `boundingRadius` stands for the virtual
`getBoundingRadius()` of the concrete subclass; `mLightMask` and
`mVisibilityFlags` are the fields behind the `getLightMask()` /
`getVisibilityFlags()` accessors (accessors in the header, not among the
provided sources; modelled from the spec as plain field reads). -/
structure MovableObject where
  mParentNode : Option SceneNode
  mVisible : Bool
  mUpperDistance : Nat
  mMinPixelSize : Nat
  mRenderQueueID : Nat
  mRenderQueuePriority : Nat
  mCastShadows : Bool
  mListener : Option Nat
  mLightList : HashedVector LightClosest
  mLightMask : Nat
  mVisibilityFlags : Nat
  mQueryFlags : Nat
  boundingRadius : Int
  mLocalAabb : Aabb
  mWorldAabb : Aabb
  mCachedAabbOutOfDate : Bool
deriving Repr, DecidableEq

namespace MovableObject

/-- The zero box, a placeholder for state the provided constructor source
does not initialise. -/
def aabb0 : Aabb := ⟨⟨0, 0, 0⟩, ⟨0, 0, 0⟩⟩

/-- Embeds `MovableObject::MovableObject(IdType)` (OgreMovableObject.cpp, lines
46–62): unattached, visible, upper distance = float max, min pixel size 0
(overridden by the Root singleton's default when a Root exists — `rootDef`),
render queue `RENDER_QUEUE_MAIN`, priority 100, casts shadows, no listener.
Fields the provided constructor source does not initialise (light list,
masks, bounds) are given model defaults; no claim depends on them. -/
def ctor (rootDef : Option Nat) : MovableObject where
  mParentNode := none
  mVisible := true
  mUpperDistance := floatMaxVal
  mMinPixelSize := match rootDef with | some d => d | none => 0
  mRenderQueueID := RENDER_QUEUE_MAIN
  mRenderQueuePriority := 100
  mCastShadows := true
  mListener := none
  mLightList := HashedVector.empty
  mLightMask := 0xFFFFFFFF
  mVisibilityFlags := msDefaultVisibilityFlags
  mQueryFlags := msDefaultQueryFlags
  boundingRadius := 0
  mLocalAabb := aabb0
  mWorldAabb := aabb0
  mCachedAabbOutOfDate := false

/-- Embeds `isAttached()`. -/
def isAttached (o : MovableObject) : Bool :=
  o.mParentNode.isSome

/-- Embeds `MovableObject::_notifyAttached(Node* parent)` (lines 80–97):
`assert(!mParentNode || !parent)` — attaching on top of an existing
attachment is a debug assertion failure (`none`); otherwise the parent
back-reference (and its SoA mirror `mObjectData.mParents[mIndex]`) is set.
The listener attach/detach callback does not change the object state. -/
def notifyAttached (o : MovableObject) (parent : Option SceneNode) : Option MovableObject :=
  if o.mParentNode.isSome ∧ parent.isSome then none
  else some { o with mParentNode := parent }

/-- Embeds `MovableObject::detachFromParent()` (lines 99–106): when attached, asks
the parent scene node to detach it (`SceneNode::detachObject`, not among the
provided sources, ends in `_notifyAttached(0)`); when unattached, does
nothing. -/
def detachFromParent (o : MovableObject) : Option MovableObject :=
  if o.isAttached then o.notifyAttached none else some o

/-- Modelled from the spec: `SceneNode::attachObject` (the attach entry
point, not among the provided sources) — "attaching an already-attached
object first detaches it from its previous node", then notifies the
attachment. -/
def attachTo (o : MovableObject) (n : SceneNode) : Option MovableObject :=
  (o.detachFromParent).bind fun o1 => o1.notifyAttached (some n)

/-- Embeds `MovableObject::_notifyMoved()` (lines 108–119), debug build (`NDEBUG`
undefined): marks the cached world AABB stale.  The listener moved callback
does not change the object state. -/
def notifyMoved (o : MovableObject) : MovableObject :=
  { o with mCachedAabbOutOfDate := true }

/-- Embeds `MovableObject::getWorldAabb()` (lines 226–230):
`assert(!mCachedAabbOutOfDate)` then return the stored world AABB;
`none` models the debug assertion failure. -/
def getWorldAabb (o : MovableObject) : Option Aabb :=
  if o.mCachedAabbOutOfDate then none else some o.mWorldAabb

/-- Embeds `MovableObject::updateSingleWorldAabb()` (lines 237–252): take the
parent node's freshly updated full transform (`_getFullTransformUpdated`,
modelled as the node's up-to-date `derivedTransform`), transform the local
AABB affinely, store it as the world AABB, clear the staleness flag, and
return it.  `none` models the null-parent dereference. -/
def updateSingleWorldAabb (o : MovableObject) : Option (Aabb × MovableObject) :=
  o.mParentNode.map fun n =>
    let retVal := o.mLocalAabb.transformAffine n.derivedTransform
    (retVal, { o with mWorldAabb := retVal, mCachedAabbOutOfDate := false })

/-- Embeds `MovableObject::getWorldAabbUpdated()` (lines 232–235). -/
def getWorldAabbUpdated (o : MovableObject) : Option (Aabb × MovableObject) :=
  o.updateSingleWorldAabb

/-- Embeds `MovableObject::isVisible()` (lines 121–131): false when `mVisible` is
false; otherwise false when there is a current scene manager (`sm`, carrying
`_getCombinedVisibilityMask()`) whose combined mask shares no bit with the
object's visibility flags; otherwise true. -/
def isVisible (o : MovableObject) (sm : Option Nat) : Bool :=
  if !o.mVisible then false
  else
    match sm with
    | some combinedMask => if o.mVisibilityFlags &&& combinedMask == 0 then false else true
    | none => true

/-- Embeds `MovableObject::setRenderQueueGroup(uint8 queueID)` (lines 204–208):
`assert(queueID <= RENDER_QUEUE_MAX)` — modelled by the bound `rqMax`, the
`RENDER_QUEUE_MAX` constant (OgreRenderQueue.h, not among the provided
sources) — then store the id.  `none` models the debug assertion failure. -/
def setRenderQueueGroup (rqMax : Nat) (queueID : Nat) (o : MovableObject) :
    Option MovableObject :=
  if queueID ≤ rqMax then some { o with mRenderQueueID := queueID } else none

/-- Embeds `MovableObject::getRenderQueueGroup()` (lines 216–219). -/
def getRenderQueueGroup (o : MovableObject) : Nat :=
  o.mRenderQueueID

/-- Embeds `MovableObject::queryLights()` (lines 266–283): when attached, compute
`factor = max(max(scl.x, scl.y), scl.z)` from the parent's derived scale and
ask the parent node for all lights within `getBoundingRadius() * factor`
matching `getLightMask()` (`SceneNode::findLights` fills `mLightList`; the
fill is modelled as materialising the result list into a fresh hashed
vector); when unattached, `mLightList.clear()`.  Either way the (cached)
`mLightList` is returned.  `K` is the nearest-lights cap applied inside the
query service (spec §4.4: implementation-configurable, default 8). -/
def queryLights (K : Nat) (o : MovableObject) :
    HashedVector LightClosest × MovableObject :=
  match o.mParentNode with
  | some sn =>
      let scl := sn.derivedScale
      let factor := max (max scl.x scl.y) scl.z
      let ll := HashedVector.ofList fhLC
        (findLights sn.lights sn.derivedPosition (o.boundingRadius * factor) o.mLightMask K)
      (ll, { o with mLightList := ll })
  | none =>
      let ll := o.mLightList.clear
      (ll, { o with mLightList := ll })

end MovableObject

/-! ## Concrete fixtures for witnesses -/

/-- A concrete stand-in mixing function over `Nat` elements, used only to
instantiate the `fh`-generic `HashedVector` theorems on concrete examples
(the real `FastHash` body is not among the provided sources; no verified
property depends on the choice). -/
def fhNat (t h : Nat) : Nat :=
  (2 * h + t + 1) % 4294967296

/-- The identity transform. -/
def mat4Id : Mat4 := ⟨⟨1, 0, 0, 0, 1, 0, 0, 0, 1⟩, ⟨0, 0, 0⟩⟩

/-- Spec §8 example light A: distance² 5 from the origin, global index 2. -/
def exLightA : Light := ⟨2, ⟨1, 2, 0⟩, 1⟩

/-- Spec §8 example light B: distance² 5 from the origin, global index 1. -/
def exLightB : Light := ⟨1, ⟨2, 1, 0⟩, 1⟩

/-- Spec §8 example light C: distance² 3 from the origin, global index 5. -/
def exLightC : Light := ⟨5, ⟨1, 1, 1⟩, 1⟩

/-- A node at the origin, unit scale, holding the three example lights. -/
def exLightNode : SceneNode := ⟨mat4Id, ⟨1, 1, 1⟩, ⟨0, 0, 0⟩, [exLightA, exLightB, exLightC]⟩

/-- An object attached to `exLightNode` with bounding radius 3 and light
mask 1. -/
def exLightObj : MovableObject :=
  { MovableObject.ctor none with
      mParentNode := some exLightNode, boundingRadius := 3, mLightMask := 1 }

/-- A node whose derived transform scales x by 2, negates y, and translates
by (10,0,0). -/
def exXformNode : SceneNode :=
  ⟨⟨⟨2, 0, 0, 0, -1, 0, 0, 0, 1⟩, ⟨10, 0, 0⟩⟩, ⟨2, 1, 1⟩, ⟨0, 0, 0⟩, []⟩

/-- An object attached to `exXformNode` with local AABB centered (1,2,3),
half-extent (1,1,1). -/
def exBoundsObj : MovableObject :=
  { MovableObject.ctor none with
      mParentNode := some exXformNode, mLocalAabb := ⟨⟨1, 2, 3⟩, ⟨1, 1, 1⟩⟩ }

/-! ## Helper lemmas -/

theorem push_back_mList {α : Type} (fh : α → Nat → Nat) (t : α) (hv : HashedVector α) :
    (HashedVector.push_back fh t hv).mList = hv.mList ++ [t] := by
  unfold HashedVector.push_back HashedVector.addToHash HashedVector.isHashDirty
  dsimp only
  split <;> rfl

theorem foldl_push_back_mList {α : Type} (fh : α → Nat → Nat) (l : List α)
    (hv : HashedVector α) :
    (l.foldl (fun hv t => HashedVector.push_back fh t hv) hv).mList = hv.mList ++ l := by
  induction l generalizing hv with
  | nil => simp
  | cons t ts ih =>
      simp only [List.foldl_cons]
      rw [ih, push_back_mList]
      simp

theorem ofList_mList {α : Type} (fh : α → Nat → Nat) (l : List α) :
    (HashedVector.ofList fh l).mList = l := by
  unfold HashedVector.ofList
  rw [foldl_push_back_mList]
  rfl

theorem listHash_append_singleton {α : Type} (fh : α → Nat → Nat) (l : List α) (t : α) :
    HashedVector.listHash fh (l ++ [t]) = fh t (HashedVector.listHash fh l) := by
  unfold HashedVector.listHash
  rw [List.foldl_append]
  rfl

/-- Every entry produced by `findLights` comes from a candidate light that
passed the mask/radius filter, and records that light's global index and its
squared distance to the query point. -/
theorem findLights_mem (lights : List Light) (p : Vec3) (radius : Int) (mask : Nat)
    (K : Nat) (e : LightClosest) (he : e ∈ findLights lights p radius mask K) :
    e.light ∈ lights ∧ e.light.lightMask &&& mask ≠ 0 ∧
      Vec3.distSq p e.light.pos ≤ radius * radius ∧
      e.globalIndex = e.light.globalIndex ∧ e.distance = Vec3.distSq p e.light.pos := by
  unfold findLights at he
  have he1 := List.mem_of_mem_take he
  have he2 := (List.perm_insertionSort lcLE _).mem_iff.mp he1
  rcases List.mem_map.mp he2 with ⟨L, hL, hLe⟩
  rcases List.mem_filter.mp hL with ⟨hLmem, hLpred⟩
  simp only [Bool.and_eq_true, decide_eq_true_eq] at hLpred
  subst hLe
  exact ⟨hLmem, hLpred.1, hLpred.2, rfl, rfl⟩

theorem findLights_length_le (lights : List Light) (p : Vec3) (radius : Int) (mask : Nat)
    (K : Nat) : (findLights lights p radius mask K).length ≤ K := by
  unfold findLights
  exact List.length_take_le K _

/-- The output of `findLights` is sorted ascending by distance with ties
broken (weakly) by global index. -/
theorem findLights_sorted (lights : List Light) (p : Vec3) (radius : Int) (mask : Nat)
    (K : Nat) : List.Pairwise lcLE (findLights lights p radius mask K) := by
  unfold findLights
  exact List.Pairwise.sublist (List.take_sublist K _) (List.sorted_insertionSort lcLE _)

/-- When the candidate lights carry pairwise-distinct global indices, the
entries of a `findLights` result have pairwise-distinct global indices. -/
theorem findLights_pairwise_ne (lights : List Light) (p : Vec3) (radius : Int)
    (mask : Nat) (K : Nat) (hnodup : (lights.map Light.globalIndex).Nodup) :
    List.Pairwise (fun a b : LightClosest => a.globalIndex ≠ b.globalIndex)
      (findLights lights p radius mask K) := by
  unfold findLights
  have hsub : List.Sublist
      ((lights.filter
        (fun L => decide (L.lightMask &&& mask ≠ 0) &&
          decide (Vec3.distSq p L.pos ≤ radius * radius))).map Light.globalIndex)
      (lights.map Light.globalIndex) :=
    List.Sublist.map _ (List.filter_sublist lights)
  have hnodupC := hsub.nodup hnodup
  have hpwC : List.Pairwise (fun a b : Light => a.globalIndex ≠ b.globalIndex)
      (lights.filter
        (fun L => decide (L.lightMask &&& mask ≠ 0) &&
          decide (Vec3.distSq p L.pos ≤ radius * radius))) :=
    List.pairwise_map.mp hnodupC
  have hpwE : List.Pairwise (fun a b : LightClosest => a.globalIndex ≠ b.globalIndex)
      ((lights.filter
        (fun L => decide (L.lightMask &&& mask ≠ 0) &&
          decide (Vec3.distSq p L.pos ≤ radius * radius))).map
        (fun L => LightClosest.mk L L.globalIndex (Vec3.distSq p L.pos))) := by
    rw [List.pairwise_map]
    exact hpwC
  have hperm := List.perm_insertionSort lcLE
      ((lights.filter
        (fun L => decide (L.lightMask &&& mask ≠ 0) &&
          decide (Vec3.distSq p L.pos ≤ radius * radius))).map
        (fun L => LightClosest.mk L L.globalIndex (Vec3.distSq p L.pos)))
  have hpwS := (hperm.pairwise_iff
      (fun h => (h.symm : _ ≠ _))).mpr hpwE
  exact List.Pairwise.sublist (List.take_sublist K _) hpwS

/-- Sorted-with-weak-ties plus distinct indices gives the strict,
deterministic order the spec demands: ascending distance, ties strictly
ascending by global index. -/
theorem findLights_strict_sorted (lights : List Light) (p : Vec3) (radius : Int)
    (mask : Nat) (K : Nat) (hnodup : (lights.map Light.globalIndex).Nodup) :
    List.Pairwise (fun a b : LightClosest =>
      a.distance < b.distance ∨ (a.distance = b.distance ∧ a.globalIndex < b.globalIndex))
      (findLights lights p radius mask K) := by
  have h1 := findLights_sorted lights p radius mask K
  have h2 := findLights_pairwise_ne lights p radius mask K hnodup
  refine (h1.and h2).imp ?_
  rintro a b ⟨hle | ⟨hde, hie⟩, hne⟩
  · exact Or.inl hle
  · exact Or.inr ⟨hde, lt_of_le_of_ne hie hne⟩

namespace HashedVector

variable {α : Type}

theorem hashAccurate_empty (fh : α → Nat → Nat) : hashAccurate fh (empty : HashedVector α) :=
  fun _ => rfl

theorem hashAccurate_push_back (fh : α → Nat → Nat) (t : α) (hv : HashedVector α)
    (h : hashAccurate fh hv) : hashAccurate fh (push_back fh t hv) := by
  intro hclean
  rcases hd : hv.mListHashDirty with _ | _
  · simp [push_back, isHashDirty, addToHash, hd, listHash_append_singleton, h hd]
  · simp [push_back, isHashDirty, hd] at hclean

theorem hashAccurate_pop_back (fh : α → Nat → Nat) (hv : HashedVector α) :
    hashAccurate fh (pop_back hv) := by
  intro hclean
  simp [pop_back, dirtyHash] at hclean

theorem hashAccurate_insert (fh : α → Nat → Nat) (pos : Nat) (t : α) (hv : HashedVector α)
    (h : hashAccurate fh hv) : hashAccurate fh (insert fh pos t hv) := by
  intro hclean
  by_cases hpos : pos = hv.mList.length
  · subst hpos
    simp [insert, addToHash, dirtyHash, List.insertIdx_length_self,
      listHash_append_singleton] at hclean ⊢
    rw [h hclean]
  · simp [insert, dirtyHash, hpos] at hclean

theorem hashAccurate_insertRange (fh : α → Nat → Nat) (pos : Nat) (ts : List α)
    (hv : HashedVector α) : hashAccurate fh (insertRange pos ts hv) := by
  intro hclean
  simp [insertRange, dirtyHash] at hclean

theorem hashAccurate_erase (fh : α → Nat → Nat) (pos : Nat) (hv : HashedVector α) :
    hashAccurate fh (erase pos hv) := by
  intro hclean
  simp [erase, dirtyHash] at hclean

theorem hashAccurate_clear (fh : α → Nat → Nat) (hv : HashedVector α) :
    hashAccurate fh (clear hv) := by
  intro _
  rfl

theorem hashAccurate_resize (fh : α → Nat → Nat) (n : Nat) (t : α) (hv : HashedVector α)
    (h : hashAccurate fh hv) : hashAccurate fh (resize n t hv) := by
  intro hclean
  by_cases hn : n = hv.mList.length
  · subst hn
    simp [resize, dirtyHash] at hclean ⊢
    exact h hclean
  · simp [resize, dirtyHash, hn] at hclean

theorem hashAccurate_subscriptSet (fh : α → Nat → Nat) (pos : Nat) (x : α)
    (hv : HashedVector α) : hashAccurate fh (subscriptSet pos x hv) := by
  intro hclean
  simp [subscriptSet, dirtyHash] at hclean

theorem hashAccurate_swap_fst (fh : α → Nat → Nat) (hv rhs : HashedVector α) :
    hashAccurate fh (swap hv rhs).1 := by
  intro hclean
  simp [swap, dirtyHash] at hclean

theorem getHash_of_dirty (fh : α → Nat → Nat) (hv : HashedVector α)
    (h : hv.mListHashDirty = true) :
    getHash fh hv = (listHash fh hv.mList, recalcHash fh hv) := by
  simp [getHash, isHashDirty, h, recalcHash]

theorem getHash_fst (fh : α → Nat → Nat) (hv : HashedVector α)
    (h : hashAccurate fh hv) : (getHash fh hv).1 = listHash fh hv.mList := by
  rcases hd : hv.mListHashDirty with _ | _
  · simp [getHash, isHashDirty, hd, h hd]
  · simp [getHash, isHashDirty, hd, recalcHash]

end HashedVector

/-! ## Claims -/

/-- C7 (counterexample to the claim as stated): `push_back` is a mutating
operation — it appends an element to the list — yet on a hash-clean vector
it does NOT mark the hash dirty: it updates the hash incrementally instead
("Quick progressive hash add", OgreCommon.h). -/
theorem C7_counterexample :
    (HashedVector.push_back fhNat 5 (HashedVector.empty : HashedVector Nat)).mList = [5] ∧
    (HashedVector.push_back fhNat 5 (HashedVector.empty : HashedVector Nat)).isHashDirty
      = false := by
  constructor <;> rfl

/-- C7 (amended): every mutating operation of the hashed light list either
marks the list hash-dirty or updates the stored hash so that it still equals
the full recompute over the current elements (`push_back` and insert-at-end
update it incrementally, `clear` resets it to the empty hash, `resize` to
the same size leaves it untouched, all others mark dirty) — except that
`swap` marks only the receiver dirty and leaves the argument's stored hash
and dirty flag unchanged (stale if the contents changed); and every hash
read (`getHash`) performed while the hash is dirty triggers a full recompute
of the hash over all current elements before returning it. -/
theorem C7_hash_laziness {α : Type} (fh : α → Nat → Nat) (hv rhs : HashedVector α)
    (t x : α) (pos n : Nat) (ts : List α) :
    (HashedVector.hashAccurate fh hv →
      (HashedVector.hashAccurate fh (HashedVector.push_back fh t hv) ∧
       HashedVector.hashAccurate fh (HashedVector.pop_back hv) ∧
       HashedVector.hashAccurate fh (HashedVector.insert fh pos t hv) ∧
       HashedVector.hashAccurate fh (HashedVector.insertRange pos ts hv) ∧
       HashedVector.hashAccurate fh (HashedVector.erase pos hv) ∧
       HashedVector.hashAccurate fh (HashedVector.clear hv) ∧
       HashedVector.hashAccurate fh (HashedVector.resize n x hv) ∧
       HashedVector.hashAccurate fh (HashedVector.subscriptSet pos x hv) ∧
       HashedVector.hashAccurate fh (HashedVector.swap hv rhs).1)) ∧
    ((HashedVector.swap hv rhs).2.mListHash = rhs.mListHash ∧
     (HashedVector.swap hv rhs).2.mListHashDirty = rhs.mListHashDirty ∧
     (HashedVector.swap hv rhs).2.mList = hv.mList) ∧
    (hv.mListHashDirty = true →
      HashedVector.getHash fh hv
        = (HashedVector.listHash fh hv.mList, HashedVector.recalcHash fh hv)) ∧
    (HashedVector.hashAccurate fh hv →
      (HashedVector.getHash fh hv).1 = HashedVector.listHash fh hv.mList) := by
  refine ⟨fun h => ⟨?_, ?_, ?_, ?_, ?_, ?_, ?_, ?_, ?_⟩, ⟨rfl, rfl, rfl⟩, ?_, ?_⟩
  · exact HashedVector.hashAccurate_push_back fh t hv h
  · exact HashedVector.hashAccurate_pop_back fh hv
  · exact HashedVector.hashAccurate_insert fh pos t hv h
  · exact HashedVector.hashAccurate_insertRange fh pos ts hv
  · exact HashedVector.hashAccurate_erase fh pos hv
  · exact HashedVector.hashAccurate_clear fh hv
  · exact HashedVector.hashAccurate_resize fh n x hv h
  · exact HashedVector.hashAccurate_subscriptSet fh pos x hv
  · exact HashedVector.hashAccurate_swap_fst fh hv rhs
  · exact HashedVector.getHash_of_dirty fh hv
  · exact HashedVector.getHash_fst fh hv

/-- C7 witness: the amended theorem applied at a concrete vector. -/
theorem C7_hash_laziness_witness :
    HashedVector.hashAccurate fhNat
      (HashedVector.push_back fhNat 5 (HashedVector.empty : HashedVector Nat)) ∧
    HashedVector.getHash fhNat
        (HashedVector.pop_back (HashedVector.push_back fhNat 5
          (HashedVector.empty : HashedVector Nat)))
      = (HashedVector.listHash fhNat [],
         HashedVector.recalcHash fhNat
           (HashedVector.pop_back (HashedVector.push_back fhNat 5
             (HashedVector.empty : HashedVector Nat)))) := by
  constructor
  · exact ((C7_hash_laziness fhNat HashedVector.empty HashedVector.empty 5 7 0 0
      [1, 2]).1 (HashedVector.hashAccurate_empty fhNat)).1
  · exact (C7_hash_laziness fhNat
      (HashedVector.pop_back (HashedVector.push_back fhNat 5 HashedVector.empty))
      HashedVector.empty 5 7 0 0 [1, 2]).2.2.1 (by decide)

/-- C9: `HashedVector::operator==` is decided solely by comparing the two
stored hash values — it never consults the element sequences and never
recomputes a dirty hash.  Consequently (concretely): a vector whose element
had been pushed and popped again holds the same (empty) element sequence as
a fresh vector but compares unequal to it because its stored hash is stale;
and a vector mutated through the non-const `operator[]` (different elements,
stale stored hash) compares equal to its unmutated original. -/
theorem C9_beq_hash_only :
    (∀ (α : Type) (a b : HashedVector α),
      HashedVector.beq a b = (a.mListHash == b.mListHash)) ∧
    ((HashedVector.pop_back (HashedVector.push_back fhNat 5
        (HashedVector.empty : HashedVector Nat))).mList
      = (HashedVector.empty : HashedVector Nat).mList ∧
     HashedVector.beq
        (HashedVector.pop_back (HashedVector.push_back fhNat 5 HashedVector.empty))
        (HashedVector.empty : HashedVector Nat) = false) ∧
    ((HashedVector.subscriptSet 0 7 (HashedVector.push_back fhNat 5
        (HashedVector.empty : HashedVector Nat))).mList
      ≠ (HashedVector.push_back fhNat 5 (HashedVector.empty : HashedVector Nat)).mList ∧
     (HashedVector.subscriptSet 0 7 (HashedVector.push_back fhNat 5
        (HashedVector.empty : HashedVector Nat))).isHashDirty = true ∧
     HashedVector.beq
        (HashedVector.subscriptSet 0 7 (HashedVector.push_back fhNat 5 HashedVector.empty))
        (HashedVector.push_back fhNat 5 (HashedVector.empty : HashedVector Nat)) = true) := by
  exact ⟨fun α a b => rfl, ⟨rfl, by decide⟩, ⟨by decide, rfl, by decide⟩⟩

/-- C1: `queryLights` returns only lights whose mask intersects the object's
light mask M, ordered ascending by (squared) distance to the query point,
truncated at the cap K, with ties in distance broken by strictly ascending
stable global light index (lower index first) whenever the candidate lights
carry distinct global indices — so the ordering is a deterministic function
of the inputs. -/
theorem C1_queryLights_order (K : Nat) (o : MovableObject)
    (hnodup : ∀ n, o.mParentNode = some n → (n.lights.map Light.globalIndex).Nodup) :
    (∀ e ∈ (MovableObject.queryLights K o).1.mList,
      e.light.lightMask &&& o.mLightMask ≠ 0) ∧
    (MovableObject.queryLights K o).1.mList.length ≤ K ∧
    List.Pairwise (fun a b : LightClosest =>
      a.distance < b.distance ∨ (a.distance = b.distance ∧ a.globalIndex < b.globalIndex))
      (MovableObject.queryLights K o).1.mList := by
  rcases hp : o.mParentNode with _ | n
  · simp [MovableObject.queryLights, hp, HashedVector.clear]
  · simp only [MovableObject.queryLights, hp, ofList_mList]
    exact ⟨fun e he => (findLights_mem _ _ _ _ _ e he).2.1,
      findLights_length_le _ _ _ _ _,
      findLights_strict_sorted _ _ _ _ _ (hnodup n hp)⟩

/-- C1 witness: the spec §8 example — lights A(dist²=5, idx=2),
B(dist²=5, idx=1), C(dist²=3, idx=5), all masks matching, K=2; the query
returns `[C, B]` (B before A on the tie, by lower index). -/
theorem C1_queryLights_order_witness :
    ((∀ e ∈ (MovableObject.queryLights 2 exLightObj).1.mList,
        e.light.lightMask &&& exLightObj.mLightMask ≠ 0) ∧
      (MovableObject.queryLights 2 exLightObj).1.mList.length ≤ 2 ∧
      List.Pairwise (fun a b : LightClosest =>
        a.distance < b.distance ∨ (a.distance = b.distance ∧ a.globalIndex < b.globalIndex))
        (MovableObject.queryLights 2 exLightObj).1.mList) ∧
    (MovableObject.queryLights 2 exLightObj).1.mList
      = [⟨exLightC, 5, 3⟩, ⟨exLightB, 1, 5⟩] := by
  constructor
  · exact C1_queryLights_order 2 exLightObj
      (by intro n hn; simp [exLightObj, MovableObject.ctor] at hn; subst hn; decide)
  · decide

/-- C2: after a move marks the cached world AABB stale, `getWorldAabb`
(debug) fails its staleness assertion, while `getWorldAabbUpdated`
recomputes this object's world AABB — the local AABB transformed affinely
by the owning node's freshly updated full transform — stores it, returns
it, and afterwards `getWorldAabb` no longer asserts and returns the same
box. -/
theorem C2_worldAabb_staleness (o : MovableObject) (n : SceneNode)
    (h : o.mParentNode = some n) :
    MovableObject.getWorldAabb (MovableObject.notifyMoved o) = none ∧
    MovableObject.getWorldAabbUpdated (MovableObject.notifyMoved o)
      = some (Aabb.transformAffine o.mLocalAabb n.derivedTransform,
          { o with
              mWorldAabb := Aabb.transformAffine o.mLocalAabb n.derivedTransform,
              mCachedAabbOutOfDate := false }) ∧
    (∀ b o2,
      MovableObject.getWorldAabbUpdated (MovableObject.notifyMoved o) = some (b, o2) →
      o2.mWorldAabb = b ∧ MovableObject.getWorldAabb o2 = some b) := by
  refine ⟨by simp [MovableObject.notifyMoved, MovableObject.getWorldAabb],
    by simp [MovableObject.notifyMoved, MovableObject.getWorldAabbUpdated,
      MovableObject.updateSingleWorldAabb, h],
    ?_⟩
  intro b o2 heq
  simp [MovableObject.notifyMoved, MovableObject.getWorldAabbUpdated,
    MovableObject.updateSingleWorldAabb, h] at heq
  rcases heq with ⟨hb, ho⟩
  subst hb
  rw [← ho]
  exact ⟨rfl, rfl⟩

/-- C2 witness: the freshly-moved `exBoundsObj` — local box
center (1,2,3) / half (1,1,1) under the transform of `exXformNode` —
updates to center (12,−2,3) / half (2,1,1). -/
theorem C2_worldAabb_staleness_witness :
    MovableObject.getWorldAabb (MovableObject.notifyMoved exBoundsObj) = none ∧
    (MovableObject.getWorldAabbUpdated (MovableObject.notifyMoved exBoundsObj)).map Prod.fst
      = some (Aabb.mk ⟨12, -2, 3⟩ ⟨2, 1, 1⟩) ∧
    (∃ o2,
      MovableObject.getWorldAabbUpdated (MovableObject.notifyMoved exBoundsObj)
        = some (Aabb.mk ⟨12, -2, 3⟩ ⟨2, 1, 1⟩, o2) ∧
      MovableObject.getWorldAabb o2 = some (Aabb.mk ⟨12, -2, 3⟩ ⟨2, 1, 1⟩)) := by
  have h := C2_worldAabb_staleness exBoundsObj exXformNode rfl
  have hbox : Aabb.transformAffine exBoundsObj.mLocalAabb exXformNode.derivedTransform
      = Aabb.mk ⟨12, -2, 3⟩ ⟨2, 1, 1⟩ := by decide
  refine ⟨h.1, by rw [h.2.1, hbox]; rfl, ?_⟩
  refine ⟨_, by rw [h.2.1, hbox], ?_⟩
  have h3 := (h.2.2 _ _ h.2.1).2
  rw [hbox] at h3
  exact h3

/-- C3: attaching (via the node's attach entry point, which detaches first
when needed) always succeeds and sets the parent back-reference — also on
an already-attached object; `detachFromParent` clears it; on an unattached
object `detachFromParent` is a no-op that never signals an error; detach
after attach restores an initially-unattached object exactly. -/
theorem C3_attach_detach (o : MovableObject) (n : SceneNode) :
    MovableObject.attachTo o n = some { o with mParentNode := some n } ∧
    MovableObject.detachFromParent { o with mParentNode := some n }
      = some { o with mParentNode := none } ∧
    (o.mParentNode = none →
      MovableObject.detachFromParent o = some o ∧
      MovableObject.detachFromParent { o with mParentNode := some n } = some o) := by
  refine ⟨?_, ?_, fun h => ⟨?_, ?_⟩⟩
  · rcases hp : o.mParentNode with _ | m <;>
      simp [MovableObject.attachTo, MovableObject.detachFromParent,
        MovableObject.notifyAttached, MovableObject.isAttached, hp]
  · simp [MovableObject.detachFromParent, MovableObject.notifyAttached,
      MovableObject.isAttached]
  · simp [MovableObject.detachFromParent, MovableObject.isAttached, h]
  · have ho : ({ o with mParentNode := none } : MovableObject) = o := by
      cases o
      simp_all
    rw [← ho]
    simp [MovableObject.detachFromParent, MovableObject.notifyAttached,
      MovableObject.isAttached]

/-- C3 witness: a freshly constructed (unattached) object attached to
`exLightNode` and detached again. -/
theorem C3_attach_detach_witness :
    MovableObject.attachTo (MovableObject.ctor none) exLightNode
      = some { MovableObject.ctor none with mParentNode := some exLightNode } ∧
    MovableObject.detachFromParent (MovableObject.ctor none)
      = some (MovableObject.ctor none) ∧
    MovableObject.detachFromParent
        { MovableObject.ctor none with mParentNode := some exLightNode }
      = some (MovableObject.ctor none) := by
  have h := C3_attach_detach (MovableObject.ctor none) exLightNode
  exact ⟨h.1, (h.2.2 rfl).1, (h.2.2 rfl).2⟩

/-- C4: on an unattached object, `queryLights` clears the cached light list
and returns it empty; the operation is total — no error path. -/
theorem C4_queryLights_unattached (K : Nat) (o : MovableObject)
    (h : o.mParentNode = none) :
    (MovableObject.queryLights K o).1.mList = [] ∧
    (MovableObject.queryLights K o).1 = HashedVector.clear o.mLightList ∧
    (MovableObject.queryLights K o).2
      = { o with mLightList := HashedVector.clear o.mLightList } := by
  refine ⟨?_, ?_, ?_⟩ <;> simp [MovableObject.queryLights, h, HashedVector.clear]

/-- C4 witness: a freshly constructed object is unattached; querying lights
on it yields the empty, cleared list. -/
theorem C4_queryLights_unattached_witness :
    (MovableObject.queryLights 8 (MovableObject.ctor none)).1.mList = [] ∧
    (MovableObject.queryLights 8 (MovableObject.ctor none)).1
      = HashedVector.clear (MovableObject.ctor none).mLightList ∧
    (MovableObject.queryLights 8 (MovableObject.ctor none)).2
      = { MovableObject.ctor none with
            mLightList := HashedVector.clear (MovableObject.ctor none).mLightList } :=
  C4_queryLights_unattached 8 (MovableObject.ctor none) rfl

/-- C5: on an attached object, `queryLights` uses the effective radius
`getBoundingRadius() * max(max(scale.x, scale.y), scale.z)` of the owning
node's derived scale and asks the node for the lights within that radius
whose mask intersects the object's light mask: every returned entry's light
passes both the mask-intersection and the radius filter. -/
theorem C5_queryLights_attached (K : Nat) (o : MovableObject) (n : SceneNode)
    (h : o.mParentNode = some n) :
    (MovableObject.queryLights K o).1 = HashedVector.ofList fhLC
      (findLights n.lights n.derivedPosition
        (o.boundingRadius * max (max n.derivedScale.x n.derivedScale.y) n.derivedScale.z)
        o.mLightMask K) ∧
    (∀ e ∈ (MovableObject.queryLights K o).1.mList,
      e.light.lightMask &&& o.mLightMask ≠ 0 ∧
      Vec3.distSq n.derivedPosition e.light.pos ≤
        (o.boundingRadius * max (max n.derivedScale.x n.derivedScale.y) n.derivedScale.z) *
        (o.boundingRadius * max (max n.derivedScale.x n.derivedScale.y) n.derivedScale.z)) := by
  have h1 : (MovableObject.queryLights K o).1 = HashedVector.ofList fhLC
      (findLights n.lights n.derivedPosition
        (o.boundingRadius * max (max n.derivedScale.x n.derivedScale.y) n.derivedScale.z)
        o.mLightMask K) := by
    simp [MovableObject.queryLights, h]
  refine ⟨h1, ?_⟩
  intro e he
  rw [h1, ofList_mList] at he
  have h2 := findLights_mem _ _ _ _ _ e he
  exact ⟨h2.2.1, h2.2.2.1⟩

/-- C5 witness: `exLightObj` (radius 3, unit scale, mask 1) attached to
`exLightNode`. -/
theorem C5_queryLights_attached_witness :
    (MovableObject.queryLights 2 exLightObj).1 = HashedVector.ofList fhLC
      (findLights exLightNode.lights exLightNode.derivedPosition
        (exLightObj.boundingRadius *
          max (max exLightNode.derivedScale.x exLightNode.derivedScale.y)
            exLightNode.derivedScale.z)
        exLightObj.mLightMask 2) ∧
    (∀ e ∈ (MovableObject.queryLights 2 exLightObj).1.mList,
      e.light.lightMask &&& exLightObj.mLightMask ≠ 0 ∧
      Vec3.distSq exLightNode.derivedPosition e.light.pos ≤
        (exLightObj.boundingRadius *
          max (max exLightNode.derivedScale.x exLightNode.derivedScale.y)
            exLightNode.derivedScale.z) *
        (exLightObj.boundingRadius *
          max (max exLightNode.derivedScale.x exLightNode.derivedScale.y)
            exLightNode.derivedScale.z)) :=
  C5_queryLights_attached 2 exLightObj exLightNode rfl

/-- C6: `isVisible()` is false when the object's own visibility flag is
false, false when the active scene's combined visibility mask shares no bit
with the object's visibility flags, and true otherwise. -/
theorem C6_isVisible (o : MovableObject) (combinedMask : Nat) :
    MovableObject.isVisible o (some combinedMask)
      = (o.mVisible && !(o.mVisibilityFlags &&& combinedMask == 0)) := by
  rcases hv : o.mVisible with _ | _ <;>
    rcases hm : (o.mVisibilityFlags &&& combinedMask == 0) with _ | _ <;>
    simp [MovableObject.isVisible, hv, hm]

/-- C8: `setRenderQueueGroup` with a queue id above the maximum is a
debug-assertion failure; with an in-range id it stores the id, and
`getRenderQueueGroup` then returns it. -/
theorem C8_renderQueue (rqMax q : Nat) (o : MovableObject) :
    (rqMax < q → MovableObject.setRenderQueueGroup rqMax q o = none) ∧
    (q ≤ rqMax →
      MovableObject.setRenderQueueGroup rqMax q o
        = some { o with mRenderQueueID := q } ∧
      ∀ o2, MovableObject.setRenderQueueGroup rqMax q o = some o2 →
        MovableObject.getRenderQueueGroup o2 = q) := by
  constructor
  · intro h
    simp [MovableObject.setRenderQueueGroup, Nat.not_le.mpr h]
  · intro h
    refine ⟨by simp [MovableObject.setRenderQueueGroup, h], ?_⟩
    intro o2 h2
    simp [MovableObject.setRenderQueueGroup, h] at h2
    rw [← h2]
    rfl

/-- C8 witness: with maximum queue id 105, id 200 trips the assertion while
id 50 is stored and read back. -/
theorem C8_renderQueue_witness :
    MovableObject.setRenderQueueGroup 105 200 (MovableObject.ctor none) = none ∧
    MovableObject.setRenderQueueGroup 105 50 (MovableObject.ctor none)
      = some { MovableObject.ctor none with mRenderQueueID := 50 } ∧
    MovableObject.getRenderQueueGroup
      { MovableObject.ctor none with mRenderQueueID := 50 } = 50 := by
  have h1 := (C8_renderQueue 105 200 (MovableObject.ctor none)).1 (by decide)
  have h2 := (C8_renderQueue 105 50 (MovableObject.ctor none)).2 (by decide)
  exact ⟨h1, h2.1, h2.2 _ h2.1⟩

/-- C10: a newly constructed `MovableObject` starts unattached, visible,
with render queue `RENDER_QUEUE_MAIN` and intra-queue priority 100, casting
shadows, with upper visibility distance equal to the maximum float value and
no listener; and the class-wide default query-flags and visibility-flags
masks are both all bits set. -/
theorem C10_ctor_defaults (rootDef : Option Nat) :
    (MovableObject.ctor rootDef).mParentNode = none ∧
    (MovableObject.ctor rootDef).mVisible = true ∧
    (MovableObject.ctor rootDef).mRenderQueueID = RENDER_QUEUE_MAIN ∧
    (MovableObject.ctor rootDef).mRenderQueuePriority = 100 ∧
    (MovableObject.ctor rootDef).mCastShadows = true ∧
    (MovableObject.ctor rootDef).mUpperDistance = floatMaxVal ∧
    (MovableObject.ctor rootDef).mListener = none ∧
    msDefaultQueryFlags = 0xFFFFFFFF ∧
    msDefaultVisibilityFlags = 0xFFFFFFFF :=
  ⟨rfl, rfl, rfl, rfl, rfl, rfl, rfl, rfl, rfl⟩

end OgreSpec
